import Mathlib

/-!
Verification of the url-to-pdf-tool batch pipeline.

Shallow embedding of `src/services/pdfService.js`, the email delivery
module and `src/services/googleDriveService.js`.  Network and file-system
effects are modelled by passing the outcome of every external call in as
an explicit oracle argument; the JavaScript value universe that flows
through JSON parsing and property access is modelled by an inductive
`JsVal` with the `undefined` value that property access can produce.
-/

namespace UrlToPdf

/-- Model of a decoded JavaScript/JSON value.  `undefined` never comes out
of `JSON.parse`, but property access on a non-object yields it. -/
inductive JsVal where
  | str (s : String)
  | num (n : Int)
  | bool (b : Bool)
  | null
  | undefined
  | arr (xs : List JsVal)
  | obj (fields : List (String × JsVal))

/-- JavaScript truthiness of a value ( `if (v)` ). -/
def jsTruthy : JsVal → Bool
  | .str s => s ≠ ""
  | .num n => n ≠ 0
  | .bool b => b
  | .null => false
  | .undefined => false
  | .arr _ => true
  | .obj _ => true

/-- JavaScript `a || b` on values (returns `a` when truthy, else `b`). -/
def jsOr (a b : JsVal) : JsVal := if jsTruthy a then a else b

/-- Property lookup on an object's field list; duplicate keys follow
JSON.parse's last-wins rule, absence is `undefined`. -/
def objLookup (fields : List (String × JsVal)) (key : String) : JsVal :=
  match fields.reverse.find? (fun p => p.1 = key) with
  | some p => p.2
  | none => .undefined

/-- JavaScript property access `v[key]`: throws a TypeError on `null` and
`undefined`, yields the field on objects, and `undefined` on every other
primitive (string/number/boolean/array properties named here don't exist). -/
def jsProp (v : JsVal) (key : String) : Except String JsVal :=
  match v with
  | .null => .error ("Cannot read properties of null (reading " ++ key ++ ")")
  | .undefined => .error ("Cannot read properties of undefined (reading " ++ key ++ ")")
  | .obj fields => .ok (objLookup fields key)
  | _ => .ok .undefined

/-- Splitting a character list at every character satisfying `p`
(structurally recursive counterpart of `String.split`; JS
`split(/[\r\n]+/)` and `split(',')` are both per-character splits here,
the former's collapsing of separator runs being restored by the blank
filter that follows it). -/
def splitChars (p : Char → Bool) : List Char → List (List Char)
  | [] => [[]]
  | c :: cs =>
    match splitChars p cs with
    | [] => if p c then [[], []] else [[c]]
    | h :: t => if p c then [] :: h :: t else (c :: h) :: t

/-- The whitespace characters relevant to `String.prototype.trim` for
this tool's inputs. -/
def isWS (c : Char) : Bool := c = ' ' || c = '\t' || c = '\n' || c = '\r'

/-- `s.trim()`: strip leading and trailing whitespace. -/
def trimChars (cs : List Char) : List Char :=
  ((cs.dropWhile isWS).reverse.dropWhile isWS).reverse

/-- `s.trim()` on strings. -/
def trimStr (s : String) : String := String.mk (trimChars s.data)

/-- `s.startsWith(pre)`. -/
def strStartsWith (s pre : String) : Bool := pre.data.isPrefixOf s.data

/-- `String(n).padStart(3, '0')` for a 1-based position `n`. -/
def padded3 (n : Nat) : String :=
  let s := toString n
  if s.length ≥ 3 then s else String.mk (List.replicate (3 - s.length) '0') ++ s

/-- The default file name `PDF_${String(n).padStart(3, '0')}.pdf` for the
1-based position `n`. -/
def defaultName (n : Nat) : String := "PDF_" ++ padded3 n ++ ".pdf"

/-! ## URL Set Parser — `parseUrls` (pdfService.js lines 216-258) -/

/-- A work item produced by the text/CSV branch of `parseUrls`. -/
structure TextItem where
  url : String
  label : String
  fileName : String
  deriving DecidableEq, Repr

/-- The non-blank lines of the input: `input.split(/[\r\n]+/)` followed by
`.filter(line => line.trim())`.  Splitting on each newline character and
dropping blank-after-trim lines yields the same list, since the extra empty
strings a character-wise split produces inside a `[\r\n]+` run are exactly
the lines the filter removes. -/
def nonBlankLines (input : String) : List String :=
  ((splitChars (fun c => c = '\n' || c = '\r') input.data).map String.mk).filter
    (fun l => trimStr l ≠ "")

/-- The trimmed comma-separated fields of one line:
`line.split(',').map(p => p.trim())`. -/
def lineParts (line : String) : List String :=
  (splitChars (fun c => c = ',') line.data).map (fun cs => String.mk (trimChars cs))

/-- Acceptance test of one line: the first field, trimmed, must start with
`http://` or `https://` (the `url &&` guard is subsumed, a string with such
a prefix is non-empty). -/
def lineAccepted (line : String) : Bool :=
  strStartsWith ((lineParts line).headD "") "http://"
    || strStartsWith ((lineParts line).headD "") "https://"

/-- The work item built from an accepted line at (0-based) position `idx`
among the non-blank lines:
`{url: parts[0], label: parts[1] || '', fileName: parts[2] || default}`. -/
def lineItem (idx : Nat) (line : String) : TextItem :=
  let parts := lineParts line
  { url := parts.headD ""
    label := parts.getD 1 ""
    fileName := if parts.getD 2 "" = "" then defaultName (idx + 1) else parts.getD 2 "" }

/-- The text/CSV branch of `parseUrls` (lines 238-254). -/
def parseUrlsText (input : String) : List TextItem :=
  (nonBlankLines input).enum.filterMap
    (fun p => if lineAccepted p.2 then some (lineItem p.1 p.2) else none)

/-- A work item produced by the JSON branch of `parseUrls`.  A bare string
element pushes an object with no `label` property at all (later read as
`undefined`), hence the `Option`. -/
structure JsonItem where
  url : JsVal
  fileName : JsVal
  label : Option JsVal

/-- Field list of a value, empty for non-objects (used only where property
access is known not to throw, i.e. after `jsProp` succeeded). -/
def JsVal.toFields : JsVal → List (String × JsVal)
  | .obj fields => fields
  | _ => []

/-- The item pushed for an object element with a truthy `url`:
`{url: item.url, fileName: item.fileName || item.name || default,
label: item.label || item.description || ''}`. -/
def jsonObjItem (idx : Nat) (fields : List (String × JsVal)) : JsonItem :=
  { url := objLookup fields "url"
    fileName := jsOr (objLookup fields "fileName")
      (jsOr (objLookup fields "name") (.str (defaultName (idx + 1))))
    label := some (jsOr (objLookup fields "label")
      (jsOr (objLookup fields "description") (.str ""))) }

/-- One step of the `data.forEach` loop of the JSON branch, for element
`item` at array index `idx`.  A thrown TypeError (property access on
`null`) surfaces as `.error`; an element that yields no work item (the
`else if (item.url)` guard fails) is `.ok none`. -/
def jsonItemStep (idx : Nat) (item : JsVal) : Except String (Option JsonItem) :=
  match item with
  | .str s => .ok (some { url := .str s, fileName := .str (defaultName (idx + 1)), label := none })
  | _ =>
    match jsProp item "url" with
    | .error e => .error e
    | .ok u =>
      if jsTruthy u then .ok (some (jsonObjItem idx item.toFields))
      else .ok none

/-- The `forEach` loop over the decoded array, from index `idx` on.  An
exception aborts the whole traversal. -/
def jsonLoop : Nat → List JsVal → Except String (List JsonItem)
  | _, [] => .ok []
  | idx, item :: rest =>
    match jsonItemStep idx item with
    | .error e => .error e
    | .ok none => jsonLoop (idx + 1) rest
    | .ok (some it) =>
      match jsonLoop (idx + 1) rest with
      | .error e => .error e
      | .ok its => .ok (it :: its)

/-- The JSON branch of `parseUrls` (lines 219-237).  `decoded` is the
outcome of `JSON.parse(input)`: `none` models a decode failure.  Any
exception inside the `try` block — decode failure or TypeError during the
loop — is replaced by the hard error `'Invalid JSON format'`; well-formed
JSON that is not an array yields the empty sequence. -/
def parseUrlsJson (decoded : Option JsVal) : Except String (List JsonItem) :=
  match decoded with
  | none => .error "Invalid JSON format"
  | some (.arr xs) =>
    match jsonLoop 0 xs with
    | .error _ => .error "Invalid JSON format"
    | .ok its => .ok its
  | some _ => .ok []

/-! ## Batch Scheduler — `processUrls` (pdfService.js lines 125-211)

The scheduler's external calls are passed in as oracles indexed by the
item's 0-based global position: `conv k` is the resolution of
`convertUrlToPdf` for item `k` (the client never rejects, see below) and
`dl k` the resolution or rejection of `downloadPdf` for item `k`.
Completion order inside a batch is unspecified in the source (concurrent
fan-out); the model records outcomes in batch-slot order, one valid
interleaving — the claims proved about the result are order-insensitive. -/

/-- Resolution of the Conversion Client as seen by the scheduler:
`{success: true, fileUrl}` or `{success: false, error}`. -/
inductive ConvOut where
  | ok (fileUrl : String)
  | fail (error : String)
  deriving DecidableEq, Repr

/-- JavaScript `a || b` for a string-or-undefined left operand (an absent
or empty string falls through to `b`). -/
def jsStrOr (a : Option String) (b : String) : String :=
  match a with
  | some s => if s = "" then b else s
  | none => b

/-- An element of the `urls` argument of `processUrls`: the fields the
scheduler reads (`item.url`, `item.fileName`, `item.label`), the latter
two possibly absent or empty. -/
structure UrlItem where
  url : String
  fileName : Option String
  label : Option String
  deriving DecidableEq, Repr

/-- An element of `results.success`. -/
structure SuccessRec where
  index : Nat
  url : String
  fileName : String
  localPath : String
  label : String
  deriving DecidableEq, Repr

/-- An element of `results.failed`. -/
structure FailedRec where
  index : Nat
  url : String
  fileName : String
  error : String
  label : String
  deriving DecidableEq, Repr

/-- The aggregate returned by `processUrls`. -/
structure BatchResult where
  success : List SuccessRec
  failed : List FailedRec
  total : Nat
  deriving DecidableEq, Repr

/-- `path.join(outputDir, fileName)` (POSIX join of two plain segments). -/
def pathJoin (dir file : String) : String := dir ++ "/" ++ file

/-- The resolution part of an outcome (the record pushed to `success`). -/
def exceptOk {F S : Type _} : Except F S → Option S
  | .ok s => some s
  | .error _ => none

/-- The failure part of an outcome (the record pushed to `failed`). -/
def exceptErr {F S : Type _} : Except F S → Option F
  | .error f => some f
  | .ok _ => none

/-- Processing of one item at 0-based global position `gidx` (lines
150-199): `index = i + idx + 1`, default file name from the 1-based index,
convert then download; a download rejection is caught and recorded as a
failure carrying the rejection's message. -/
def processItem (conv : Nat → ConvOut) (dl : Nat → Except String Unit)
    (outputDir : String) (gidx : Nat) (item : UrlItem) :
    Except FailedRec SuccessRec :=
  let index := gidx + 1
  let fileName := jsStrOr item.fileName (defaultName index)
  let label := jsStrOr item.label ""
  match conv gidx with
  | .ok _ =>
    match dl gidx with
    | .ok _ =>
      .ok { index := index, url := item.url, fileName := fileName
            localPath := pathJoin outputDir fileName, label := label }
    | .error e =>
      .error { index := index, url := item.url, fileName := fileName
               error := e, label := label }
  | .fail e =>
    .error { index := index, url := item.url, fileName := fileName
             error := e, label := label }

/-- One batch: `batch.map(async (item, idx) => ...)` joined by
`Promise.all`, items at global positions `i`, `i+1`, …. -/
def processBatchItems (conv : Nat → ConvOut) (dl : Nat → Except String Unit)
    (outputDir : String) (i : Nat) (batch : List UrlItem) :
    List (Except FailedRec SuccessRec) :=
  batch.enum.map (fun p => processItem conv dl outputDir (i + p.1) p.2)

/-- The batch loop `for (let i = 0; i < urls.length; i += batchSize)` with
`batchSize = 5` (lines 135-208): take `urls.slice(i, i+5)`, process it,
recurse on the rest.  Written with explicit 5-element patterns so the
definition is structurally recursive. -/
def processGo (conv : Nat → ConvOut) (dl : Nat → Except String Unit)
    (outputDir : String) : Nat → List UrlItem → List (Except FailedRec SuccessRec)
  | _, [] => []
  | i, a :: b :: c :: d :: e :: f :: rest =>
    processBatchItems conv dl outputDir i [a, b, c, d, e]
      ++ processGo conv dl outputDir (i + 5) (f :: rest)
  | i, rem => processBatchItems conv dl outputDir i rem

/-- `processUrls` (lines 125-211): every item resolves to exactly one push
into `results.success` or `results.failed`; `total = urls.length`. -/
def processUrls (conv : Nat → ConvOut) (dl : Nat → Except String Unit)
    (outputDir : String) (urls : List UrlItem) : BatchResult :=
  { success := (processGo conv dl outputDir 0 urls).filterMap exceptOk
    failed := (processGo conv dl outputDir 0 urls).filterMap exceptErr
    total := urls.length }

/-- The batch partition produced by `urls.slice(i, i + 5)` over the loop:
consecutive chunks of five, the last one possibly smaller. -/
def chunk5 {α : Type _} : List α → List (List α)
  | [] => []
  | a :: b :: c :: d :: e :: f :: rest => [a, b, c, d, e] :: chunk5 (f :: rest)
  | rem => [rem]

/-- Events of the scheduler's timeline: a batch of a given size is fanned
out and joined, or the 2000 ms pacing delay runs. -/
inductive SchedEvent where
  | batch (size : Nat)
  | delay
  deriving DecidableEq, Repr

/-- The scheduling trace of the loop: each iteration emits its batch, then
the pacing delay exactly when `i + batchSize < urls.length`, i.e. when
more than five items remained at the start of the iteration. -/
def schedule {α : Type _} : List α → List SchedEvent
  | [] => []
  | _ :: _ :: _ :: _ :: _ :: f :: rest =>
    .batch 5 :: .delay :: schedule (f :: rest)
  | rem => [.batch rem.length]

/-- Number of pacing delays in a trace. -/
def countDelays (evs : List SchedEvent) : Nat :=
  (evs.filter (fun e => e = .delay)).length

/-- The batch sizes of a trace, in order. -/
def batchSizes (evs : List SchedEvent) : List Nat :=
  evs.filterMap (fun e => match e with | .batch n => some n | .delay => none)

/-! ## Conversion Client — `convertUrlToPdf` (pdfService.js lines 11-70) -/

/-- Decoding outcome of the accumulated response body:
`JSON.parse(data)` either throws (with a message) or yields a value. -/
inductive BodyDecode where
  | malformed (msg : String)
  | value (v : JsVal)

/-- Terminal transport event of the conversion request: the `'error'`
handler, the 60000 ms timeout, or a complete response carrying a status
code and a body. -/
inductive ConvTransport where
  | netError (msg : String)
  | timeout
  | response (status : Nat) (body : BodyDecode)

/-- The object `convertUrlToPdf` resolves with: always exactly one of the
`success: true` / `success: false` shapes, never a rejection. -/
structure ConvResp where
  success : Bool
  fileUrl : Option JsVal
  error : Option JsVal
  fileName : String

/-- `convertUrlToPdf`'s handling of the terminal transport event (lines
37-65).  Note that `res.statusCode` is never consulted: classification
looks only at `response.FileUrl` of the decoded body.  Property access on
a decoded `null` throws inside the `try` and is caught by the same
`catch` as a decode failure. -/
def convertUrlToPdf (fileName : String) (t : ConvTransport) : ConvResp :=
  match t with
  | .netError m =>
    { success := false, fileUrl := none, error := some (.str m), fileName := fileName }
  | .timeout =>
    { success := false, fileUrl := none, error := some (.str "Request timeout")
      fileName := fileName }
  | .response _ (.malformed m) =>
    { success := false, fileUrl := none
      error := some (.str ("JSON parse error: " ++ m)), fileName := fileName }
  | .response _ (.value v) =>
    match jsProp v "FileUrl" with
    | .error m =>
      { success := false, fileUrl := none
        error := some (.str ("JSON parse error: " ++ m)), fileName := fileName }
    | .ok u =>
      if jsTruthy u then
        { success := true, fileUrl := some u, error := none, fileName := fileName }
      else
        { success := false, fileUrl := none
          error := some (jsOr (objLookup v.toFields "Error")
            (jsOr (objLookup v.toFields "error") (.str "Unknown API error")))
          fileName := fileName }

/-! ## Artifact Fetcher — `downloadPdf` (pdfService.js lines 75-120) -/

/-- Terminal event of the initial GET: the `'error'` handler, the
120000 ms timeout, or a response with its status code and `location`
header. -/
inductive FetchFirst where
  | netErr (msg : String)
  | timeout
  | resp (status : Nat) (location : String)

/-- Terminal event of the GET issued to the redirect target (the inner
`redirectProtocol.get` installs only a response handler and an `'error'`
handler). -/
inductive FetchSecond where
  | netErr (msg : String)
  | resp (status : Nat) (location : String)

/-- Outcome of `downloadPdf`: the resolved local path or the rejection
message, paired with whether the file at `localPath` still exists
afterwards (every rejection path runs `fs.unlink` first). -/
structure FetchOutcome where
  result : Except String String
  fileKept : Bool

/-- `downloadPdf` (lines 75-120).  On a 301/302 the `location` target is
fetched and its response is piped to the file and resolved as the
artifact *whatever its status code is*; only the initial response's
status is inspected (200 = content, 301/302 = redirect, anything else
rejects with `HTTP <status>`). -/
def downloadPdf (localPath : String) (first : FetchFirst) (second : FetchSecond) :
    FetchOutcome :=
  match first with
  | .netErr m => { result := .error m, fileKept := false }
  | .timeout => { result := .error "Download timeout", fileKept := false }
  | .resp status _ =>
    if status = 301 ∨ status = 302 then
      match second with
      | .netErr m => { result := .error m, fileKept := false }
      | .resp _ _ => { result := .ok localPath, fileKept := true }
    else if status = 200 then
      { result := .ok localPath, fileKept := true }
    else
      { result := .error ("HTTP " ++ toString status), fileKept := false }

/-! ## Bundle-and-mail delivery — `sendPdfsViaEmail` (email module lines 243-298) -/

/-- The uniform result object of the email path (`{success, ...}` with an
optional error or message id). -/
structure EmailResult where
  success : Bool
  error : Option String
  messageId : Option String
  deriving DecidableEq, Repr

/-- `(zip.size / 1024 / 1024).toFixed(2)`: megabytes with two decimals,
modelled by exact rational rounding (round half up on the hundredths). -/
def formatMB2 (bytes : Nat) : String :=
  let hundredths := (bytes * 100 + 524288) / 1048576
  toString (hundredths / 100) ++ "." ++
    (if hundredths % 100 < 10 then "0" else "") ++ toString (hundredths % 100)

/-- The oversize error string of lines 265-268. -/
def sizeExceededMsg (size : Nat) : String :=
  "ZIP file too large (" ++ formatMB2 size ++
    " MB). Maximum is 25MB. Consider using Google Drive delivery instead."

/-- The 25 MB ceiling `25 * 1024 * 1024` of line 261. -/
def maxZipSize : Nat := 25 * 1024 * 1024

/-- `sendPdfsViaEmail` (lines 243-298).  `zipOutcome` is the resolution of
`createZipFromPdfs` (the archive's byte size) or its rejection message;
`emailOutcome` is the result of `sendEmailWithZip` (which itself catches
`sendMail` failures) or the message of an exception thrown on the send
path.  Returns the delivery result paired with whether the bundle file at
`zipPath` still exists: the oversize branch, the post-send line and the
`catch` all remove it. -/
def sendPdfsViaEmail (zipOutcome : Except String Nat)
    (emailOutcome : Except String EmailResult) : EmailResult × Bool :=
  match zipOutcome with
  | .error m => ({ success := false, error := some m, messageId := none }, false)
  | .ok size =>
    if size > maxZipSize then
      ({ success := false, error := some (sizeExceededMsg size), messageId := none }, false)
    else
      match emailOutcome with
      | .error m => ({ success := false, error := some m, messageId := none }, false)
      | .ok r => (r, false)

/-! ## Upload-and-share delivery — `uploadPdfsToSharedFolder`
(googleDriveService.js lines 143-190) -/

/-- The folder descriptor returned by `createFolder`. -/
structure DriveFolder where
  id : String
  name : String
  deriving DecidableEq, Repr

/-- The file descriptor returned by `uploadFile`. -/
structure DriveFile where
  id : String
  webViewLink : String
  deriving DecidableEq, Repr

/-- One element of the `uploadResults` array. -/
structure UploadEntry where
  success : Bool
  fileName : String
  fileId : Option String
  webViewLink : Option String
  error : Option String
  deriving DecidableEq, Repr

/-- A PDF handed to the dispatcher (the fields it reads). -/
structure PdfFile where
  localPath : String
  fileName : String
  deriving DecidableEq, Repr

/-- The uniform result object of the drive path. -/
structure DriveResult where
  success : Bool
  folderId : Option String
  folderName : Option String
  shareLink : Option String
  uploadedFiles : Option Nat
  failedFiles : Option Nat
  results : List UploadEntry
  error : Option String
  deriving DecidableEq, Repr

/-- The per-file upload loop of lines 150-169: each upload's own
`try`/`catch` turns its outcome into an entry, so every file yields
exactly one entry and a failure never stops the loop. -/
def uploadLoop (uploads : Nat → Except String DriveFile) :
    Nat → List PdfFile → List UploadEntry
  | _, [] => []
  | k, pdf :: rest =>
    (match uploads k with
     | .ok r =>
       { success := true, fileName := pdf.fileName, fileId := some r.id
         webViewLink := some r.webViewLink, error := none }
     | .error m =>
       { success := false, fileName := pdf.fileName, fileId := none
         webViewLink := none, error := some m }) :: uploadLoop uploads (k + 1) rest

/-- `uploadPdfsToSharedFolder` (lines 143-190).  `folderOutcome` is the
resolution or rejection of `createFolder`, `uploads k` that of
`uploadFile` for the k-th file, `shareOutcome` that of `shareWithEmail`;
a rejection of folder creation or of the share grant reaches the outer
`catch` and yields the failure shape. -/
def uploadPdfsToSharedFolder (pdfFiles : List PdfFile)
    (folderOutcome : Except String DriveFolder)
    (uploads : Nat → Except String DriveFile)
    (shareOutcome : Except String String) : DriveResult :=
  match folderOutcome with
  | .error m =>
    { success := false, folderId := none, folderName := none, shareLink := none
      uploadedFiles := none, failedFiles := none, results := [], error := some m }
  | .ok folder =>
    let uploadResults := uploadLoop uploads 0 pdfFiles
    match shareOutcome with
    | .error m =>
      { success := false, folderId := none, folderName := none, shareLink := none
        uploadedFiles := none, failedFiles := none, results := [], error := some m }
    | .ok link =>
      { success := true, folderId := some folder.id, folderName := some folder.name
        shareLink := some link
        uploadedFiles := some (uploadResults.filter (fun r => r.success)).length
        failedFiles := some (uploadResults.filter (fun r => !r.success)).length
        results := uploadResults, error := none }

/-- Sequential processing of a list of batches, the loop counter
advancing by the fixed `batchSize = 5` per iteration exactly as
`i += batchSize` does. -/
def processChunks (conv : Nat → ConvOut) (dl : Nat → Except String Unit)
    (outputDir : String) : Nat → List (List UrlItem) → List (Except FailedRec SuccessRec)
  | _, [] => []
  | i, b :: bs =>
    processBatchItems conv dl outputDir i b ++ processChunks conv dl outputDir (i + 5) bs

/-- A concrete work item used to instantiate theorems. -/
def sampleItem : UrlItem :=
  { url := "https://example.com", fileName := none, label := none }

/-- Whether the upload oracle fails for the k-th file. -/
def uploadFailed (uploads : Nat → Except String DriveFile) (k : Nat) : Bool :=
  match uploads k with
  | .error _ => true
  | .ok _ => false

/-! ## Helper lemmas -/

theorem enumFrom_map_shift {α β : Type _} (f : Nat → α → β) (i : Nat) :
    ∀ (l : List α) (n : Nat),
      (List.enumFrom n l).map (fun p => f (i + p.1) p.2)
        = (List.enumFrom (i + n) l).map (fun p => f p.1 p.2) := by
  intro l
  induction l with
  | nil => intro n; simp
  | cons x xs ih =>
    intro n
    simp only [List.enumFrom, List.map_cons, ih (n + 1)]
    rfl

theorem enum_map_shift {α β : Type _} (f : Nat → α → β) (i : Nat) (l : List α) :
    l.enum.map (fun p => f (i + p.1) p.2) = (List.enumFrom i l).map (fun p => f p.1 p.2) := by
  have h := enumFrom_map_shift f i l 0
  simpa [List.enum] using h

/-- The batch loop visits every item exactly once, at its global position:
its output is the per-item map over the position-enumerated input. -/
theorem processGo_eq (conv : Nat → ConvOut) (dl : Nat → Except String Unit)
    (dir : String) : ∀ (i : Nat) (urls : List UrlItem),
    processGo conv dl dir i urls
      = (List.enumFrom i urls).map (fun p => processItem conv dl dir p.1 p.2) := by
  intro i urls
  induction i, urls using processGo.induct conv dl dir with
  | case1 i => simp [processGo]
  | case2 i a b c d e f rest ih =>
    show processBatchItems conv dl dir i [a, b, c, d, e]
        ++ processGo conv dl dir (i + 5) (f :: rest) = _
    rw [ih]
    show [a, b, c, d, e].enum.map (fun p => processItem conv dl dir (i + p.1) p.2) ++ _ = _
    rw [enum_map_shift (fun k x => processItem conv dl dir k x) i [a, b, c, d, e]]
    simp [List.enumFrom]
  | case3 i rem h1 h2 =>
    have hgo : processGo conv dl dir i rem = processBatchItems conv dl dir i rem := by
      match rem, h1, h2 with
      | [], h1, _ => exact absurd rfl h1
      | [a], _, _ => rfl
      | [a, b], _, _ => rfl
      | [a, b, c], _, _ => rfl
      | [a, b, c, d], _, _ => rfl
      | [a, b, c, d, e], _, _ => rfl
      | a :: b :: c :: d :: e :: f :: rest, _, h2 => exact absurd rfl (h2 a b c d e f rest)
    rw [hgo]
    show rem.enum.map (fun p => processItem conv dl dir (i + p.1) p.2) = _
    rw [enum_map_shift (fun k x => processItem conv dl dir k x) i rem]

theorem processGo_length (conv : Nat → ConvOut) (dl : Nat → Except String Unit)
    (dir : String) (i : Nat) (urls : List UrlItem) :
    (processGo conv dl dir i urls).length = urls.length := by
  rw [processGo_eq]
  simp

/-- Splitting a list of `Except` outcomes into its oks and its errors
loses nothing: the two parts' lengths sum to the whole. -/
theorem length_filterMap_except {F S : Type _} (rs : List (Except F S)) :
    (rs.filterMap exceptOk).length + (rs.filterMap exceptErr).length = rs.length := by
  induction rs with
  | nil => rfl
  | cons r rest ih =>
    cases r <;> simp [List.filterMap_cons, exceptOk, exceptErr] <;> omega

/-- Whatever the oracles do, a successful record of item `k` carries
`index = k + 1`. -/
theorem processItem_ok_index (conv : Nat → ConvOut) (dl : Nat → Except String Unit)
    (dir : String) (k : Nat) (item : UrlItem) (s : SuccessRec)
    (h : processItem conv dl dir k item = .ok s) : s.index = k + 1 := by
  cases hc : conv k with
  | ok u =>
    cases hd : dl k with
    | ok _ =>
      simp only [processItem, hc, hd, Except.ok.injEq] at h
      rw [← h]
    | error e =>
      simp [processItem, hc, hd] at h
  | fail e =>
    simp [processItem, hc] at h

/-! ## Claim theorems -/

/-- C1: for every input sequence of N work items, `processUrls` returns a
`BatchResult` with `success.length + failed.length = N = total` — every
item is classified exactly once as success or failed, and no item failure
aborts the batch or the overall run (the total function always returns
the full accounting, whatever the conversion and download oracles do). -/
theorem c1_batch_accounting (conv : Nat → ConvOut) (dl : Nat → Except String Unit)
    (dir : String) (urls : List UrlItem) :
    (processUrls conv dl dir urls).success.length
        + (processUrls conv dl dir urls).failed.length = urls.length
      ∧ (processUrls conv dl dir urls).total = urls.length := by
  refine ⟨?_, rfl⟩
  have h := length_filterMap_except (processGo conv dl dir 0 urls)
  rw [processGo_length] at h
  simpa [processUrls] using h

/-- C3: if the Conversion Client succeeds for item `g` but the download
then fails with error `e`, the item is recorded in `failed` with index
`g + 1` carrying the download's error, and no record with that index ever
appears in `success`. -/
theorem c3_download_failure_recorded (conv : Nat → ConvOut)
    (dl : Nat → Except String Unit) (dir : String) (urls : List UrlItem)
    (g : Nat) (u e : String)
    (hg : g < urls.length) (hc : conv g = .ok u) (hd : dl g = .error e) :
    (∃ f ∈ (processUrls conv dl dir urls).failed, f.index = g + 1 ∧ f.error = e)
      ∧ ∀ s ∈ (processUrls conv dl dir urls).success, s.index ≠ g + 1 := by
  have hrs := processGo_eq conv dl dir 0 urls
  have hlen : (processGo conv dl dir 0 urls).length = urls.length :=
    processGo_length conv dl dir 0 urls
  have hgetg : ∀ (k : Nat) (hk : k < urls.length),
      (processGo conv dl dir 0 urls).get? k
        = some (processItem conv dl dir k (urls.get ⟨k, hk⟩)) := by
    intro k hk
    rw [hrs]
    simp [List.get?_eq_getElem?, hk, List.getElem?_eq_getElem, hlen]
  have hitem : processItem conv dl dir g (urls.get ⟨g, hg⟩) = .error
      { index := g + 1, url := (urls.get ⟨g, hg⟩).url
        fileName := jsStrOr (urls.get ⟨g, hg⟩).fileName (defaultName (g + 1))
        error := e, label := jsStrOr (urls.get ⟨g, hg⟩).label "" } := by
    simp [processItem, hc, hd]
  constructor
  · refine ⟨{ index := g + 1, url := (urls.get ⟨g, hg⟩).url
              fileName := jsStrOr (urls.get ⟨g, hg⟩).fileName (defaultName (g + 1))
              error := e, label := jsStrOr (urls.get ⟨g, hg⟩).label "" }, ?_, rfl, rfl⟩
    show _ ∈ (processGo conv dl dir 0 urls).filterMap _
    refine List.mem_filterMap.mpr ⟨.error _, ?_, rfl⟩
    apply List.get?_mem
    rw [hgetg g hg, hitem]
  · intro s hs hidx
    obtain ⟨r, hr, hsel⟩ := List.mem_filterMap.mp hs
    have hrok : r = .ok s := by
      cases r with
      | ok s' => simp only [exceptOk, Option.some.injEq] at hsel; rw [hsel]
      | error f => simp [exceptOk] at hsel
    subst hrok
    obtain ⟨⟨k, hk⟩, hkr⟩ := List.mem_iff_get.mp hr
    have hk' : k < urls.length := by rw [← hlen]; exact hk
    have hpk : processItem conv dl dir k (urls.get ⟨k, hk'⟩) = .ok s := by
      have := hgetg k hk'
      rw [List.get?_eq_get hk] at this
      have h2 := Option.some.inj this
      rw [← h2, hkr]
    have hsk : s.index = k + 1 :=
      processItem_ok_index conv dl dir k (urls.get ⟨k, hk'⟩) s hpk
    have hkg : k = g := by omega
    subst hkg
    rw [hpk] at hitem
    exact Except.noConfusion hitem

theorem c3_witness :
    (∃ f ∈ (processUrls (fun _ => ConvOut.ok "https://cdn.example/x.pdf")
        (fun k => if k = 1 then Except.error "socket hang up" else Except.ok ())
        "out" [sampleItem, sampleItem]).failed,
        f.index = 2 ∧ f.error = "socket hang up")
      ∧ ∀ s ∈ (processUrls (fun _ => ConvOut.ok "https://cdn.example/x.pdf")
          (fun k => if k = 1 then Except.error "socket hang up" else Except.ok ())
          "out" [sampleItem, sampleItem]).success, s.index ≠ 2 :=
  c3_download_failure_recorded
    (fun _ => ConvOut.ok "https://cdn.example/x.pdf")
    (fun k => if k = 1 then Except.error "socket hang up" else Except.ok ())
    "out" [sampleItem, sampleItem] 1 "https://cdn.example/x.pdf" "socket hang up"
    (by decide) rfl rfl

/-! ### Batch partition and pacing lemmas -/

theorem chunk5_flatten {α : Type _} : ∀ (l : List α), (chunk5 l).flatten = l := by
  intro l
  induction l using chunk5.induct with
  | case1 => rfl
  | case2 a b c d e f rest ih =>
    show ([a, b, c, d, e] :: chunk5 (f :: rest)).flatten = _
    simp [List.flatten, ih]
  | case3 rem h1 h2 =>
    match rem, h1, h2 with
    | [a], _, _ => rfl
    | [a, b], _, _ => rfl
    | [a, b, c], _, _ => rfl
    | [a, b, c, d], _, _ => rfl
    | [a, b, c, d, e], _, _ => rfl
    | [], h1, _ => exact absurd rfl h1
    | a :: b :: c :: d :: e :: f :: rest, _, h2 => exact absurd rfl (h2 a b c d e f rest)

theorem chunk5_mem_bound {α : Type _} :
    ∀ (l : List α) (c : List α), c ∈ chunk5 l → c.length ≤ 5 ∧ c ≠ [] := by
  intro l
  induction l using chunk5.induct with
  | case1 => intro c hc; exact absurd hc (List.not_mem_nil c)
  | case2 a b c d e f rest ih =>
    intro x hx
    have hx' : x ∈ [a, b, c, d, e] :: chunk5 (f :: rest) := hx
    rcases List.mem_cons.mp hx' with h | h
    · subst h; exact ⟨by simp, by simp⟩
    · exact ih x h
  | case3 rem h1 h2 =>
    intro x hx
    have hrem : chunk5 rem = [rem] := by
      match rem, h1, h2 with
      | [a], _, _ => rfl
      | [a, b], _, _ => rfl
      | [a, b, c], _, _ => rfl
      | [a, b, c, d], _, _ => rfl
      | [a, b, c, d, e], _, _ => rfl
      | [], h1, _ => exact absurd rfl h1
      | a :: b :: c :: d :: e :: f :: rest, _, h2 => exact absurd rfl (h2 a b c d e f rest)
    have hlen : rem.length ≤ 5 := by
      match rem, h1, h2 with
      | [a], _, _ => simp
      | [a, b], _, _ => simp
      | [a, b, c], _, _ => simp
      | [a, b, c, d], _, _ => simp
      | [a, b, c, d, e], _, _ => simp
      | [], h1, _ => exact absurd rfl h1
      | a :: b :: c :: d :: e :: f :: rest, _, h2 => exact absurd rfl (h2 a b c d e f rest)
    rw [hrem] at hx
    rcases List.mem_cons.mp hx with h | h
    · subst h
      refine ⟨hlen, fun hnil => h1 hnil⟩
    · exact absurd h (List.not_mem_nil x)

theorem chunk5_ne_nil {α : Type _} (l : List α) (h : l ≠ []) : chunk5 l ≠ [] := by
  have := chunk5_flatten l
  intro hnil
  rw [hnil] at this
  exact h (this.symm)

theorem chunk5_dropLast_full {α : Type _} :
    ∀ (l : List α) (c : List α), c ∈ (chunk5 l).dropLast → c.length = 5 := by
  intro l
  induction l using chunk5.induct with
  | case1 => intro c hc; exact absurd hc (List.not_mem_nil c)
  | case2 a b c d e f rest ih =>
    intro x hx
    have hch : chunk5 (a :: b :: c :: d :: e :: f :: rest)
        = [a, b, c, d, e] :: chunk5 (f :: rest) := rfl
    rw [hch, List.dropLast_cons_of_ne_nil (chunk5_ne_nil (f :: rest) (by simp))] at hx
    rcases List.mem_cons.mp hx with h | h
    · subst h; rfl
    · exact ih x h
  | case3 rem h1 h2 =>
    intro x hx
    have hrem : chunk5 rem = [rem] := by
      match rem, h1, h2 with
      | [a], _, _ => rfl
      | [a, b], _, _ => rfl
      | [a, b, c], _, _ => rfl
      | [a, b, c, d], _, _ => rfl
      | [a, b, c, d, e], _, _ => rfl
      | [], h1, _ => exact absurd rfl h1
      | a :: b :: c :: d :: e :: f :: rest, _, h2 => exact absurd rfl (h2 a b c d e f rest)
    rw [hrem] at hx
    exact absurd hx (List.not_mem_nil x)

theorem processGo_chunks (conv : Nat → ConvOut) (dl : Nat → Except String Unit)
    (dir : String) : ∀ (i : Nat) (urls : List UrlItem),
    processGo conv dl dir i urls = processChunks conv dl dir i (chunk5 urls) := by
  intro i urls
  induction i, urls using processGo.induct conv dl dir with
  | case1 i => rfl
  | case2 i a b c d e f rest ih =>
    show processBatchItems conv dl dir i [a, b, c, d, e]
        ++ processGo conv dl dir (i + 5) (f :: rest) = _
    rw [ih]
    rfl
  | case3 i rem h1 h2 =>
    match rem, h1, h2 with
    | [a], _, _ => simp [processGo, processChunks]
    | [a, b], _, _ => simp [processGo, processChunks]
    | [a, b, c], _, _ => simp [processGo, processChunks]
    | [a, b, c, d], _, _ => simp [processGo, processChunks]
    | [a, b, c, d, e], _, _ => simp [processGo, processChunks]
    | [], h1, _ => exact absurd rfl h1
    | a :: b :: c :: d :: e :: f :: rest, _, h2 => exact absurd rfl (h2 a b c d e f rest)

theorem schedule_batchSizes {α : Type _} :
    ∀ (l : List α), batchSizes (schedule l) = (chunk5 l).map List.length := by
  intro l
  induction l using schedule.induct with
  | case1 => rfl
  | case2 a b c d e f rest ih =>
    show batchSizes (.batch 5 :: .delay :: schedule (f :: rest)) = _
    simp only [batchSizes, List.filterMap_cons] at ih ⊢
    rw [ih]
    rfl
  | case3 rem h1 h2 =>
    match rem, h1, h2 with
    | [a], _, _ => rfl
    | [a, b], _, _ => rfl
    | [a, b, c], _, _ => rfl
    | [a, b, c, d], _, _ => rfl
    | [a, b, c, d, e], _, _ => rfl
    | [], h1, _ => exact absurd rfl h1
    | a :: b :: c :: d :: e :: f :: rest, _, h2 => exact absurd rfl (h2 a b c d e f rest)

theorem schedule_countDelays {α : Type _} :
    ∀ (l : List α), countDelays (schedule l) = (chunk5 l).length - 1 := by
  intro l
  induction l using schedule.induct with
  | case1 => rfl
  | case2 a b c d e f rest ih =>
    show countDelays (.batch 5 :: .delay :: schedule (f :: rest)) = _
    have hpos : 0 < (chunk5 (f :: rest)).length :=
      List.length_pos.mpr (chunk5_ne_nil (f :: rest) (by simp))
    have hch : chunk5 (a :: b :: c :: d :: e :: f :: rest)
        = [a, b, c, d, e] :: chunk5 (f :: rest) := rfl
    simp only [countDelays, List.filter_cons] at ih ⊢
    rw [hch]
    simp only [List.length_cons]
    have : (List.filter (fun e => decide (e = SchedEvent.delay))
        (schedule (f :: rest))).length = (chunk5 (f :: rest)).length - 1 := by
      simpa [countDelays] using ih
    simp [this]
    omega
  | case3 rem h1 h2 =>
    match rem, h1, h2 with
    | [a], _, _ => rfl
    | [a, b], _, _ => rfl
    | [a, b, c], _, _ => rfl
    | [a, b, c, d], _, _ => rfl
    | [a, b, c, d, e], _, _ => rfl
    | [], h1, _ => exact absurd rfl h1
    | a :: b :: c :: d :: e :: f :: rest, _, h2 => exact absurd rfl (h2 a b c d e f rest)

/-- C2: the scheduler partitions the input into consecutive batches of
exactly 5 (the last possibly smaller), processes the batches strictly
sequentially (each batch fanned out and joined as one unit, the loop
counter stepping by 5), and schedules the pacing delay after every batch
except the final one; with 12 items this gives the trace
batch 5, delay, batch 5, delay, batch 2 — exactly 2 delays. -/
theorem c2_batch_partition_and_pacing :
    (∀ (urls : List UrlItem), (chunk5 urls).flatten = urls)
    ∧ (∀ (urls c : List UrlItem), c ∈ chunk5 urls → c.length ≤ 5 ∧ c ≠ [])
    ∧ (∀ (urls c : List UrlItem), c ∈ (chunk5 urls).dropLast → c.length = 5)
    ∧ (∀ (conv : Nat → ConvOut) (dl : Nat → Except String Unit) (dir : String)
        (i : Nat) (urls : List UrlItem),
        processGo conv dl dir i urls = processChunks conv dl dir i (chunk5 urls))
    ∧ (∀ (urls : List UrlItem), batchSizes (schedule urls) = (chunk5 urls).map List.length)
    ∧ (∀ (urls : List UrlItem), countDelays (schedule urls) = (chunk5 urls).length - 1)
    ∧ schedule (List.range 12)
        = [.batch 5, .delay, .batch 5, .delay, .batch 2]
    ∧ countDelays (schedule (List.range 12)) = 2 :=
  ⟨chunk5_flatten, chunk5_mem_bound, chunk5_dropLast_full,
    fun conv dl dir => processGo_chunks conv dl dir,
    schedule_batchSizes, schedule_countDelays, by decide, by decide⟩

theorem c2_witness :
    (List.replicate 5 sampleItem).length ≤ 5
      ∧ List.replicate 5 sampleItem ≠ ([] : List UrlItem)
      ∧ (List.replicate 5 sampleItem).length = 5 :=
  ⟨(c2_batch_partition_and_pacing.2.1 (List.replicate 12 sampleItem)
      (List.replicate 5 sampleItem) (by decide)).1,
    (c2_batch_partition_and_pacing.2.1 (List.replicate 12 sampleItem)
      (List.replicate 5 sampleItem) (by decide)).2,
    c2_batch_partition_and_pacing.2.2.1 (List.replicate 12 sampleItem)
      (List.replicate 5 sampleItem) (by decide)⟩

/-! ### Parser lemmas and claims -/

theorem filterMap_guard {α β : Type _} (c : α → Bool) (f : α → β) :
    ∀ (l : List α),
      (l.filterMap (fun a => if c a then some (f a) else none)) = (l.filter c).map f := by
  intro l
  induction l with
  | nil => rfl
  | cons x xs ih =>
    by_cases h : c x <;> simp [List.filterMap_cons, List.filter_cons, h, ih]

/-- C9: in plain/delimited parsing a line produces a work item exactly
when its first comma-separated field, trimmed, begins with `http://` or
`https://` — the output is precisely the accepted lines, in order, mapped
to their items; all other non-blank lines and all blank lines are dropped
without an error.  The two example lines behave as the spec states. -/
theorem c9_text_line_acceptance :
    (∀ (input : String), parseUrlsText input
        = (((nonBlankLines input).enum.filter (fun p => lineAccepted p.2)).map
            (fun p => lineItem p.1 p.2)))
    ∧ (∀ (line : String), lineAccepted line
        = (strStartsWith ((lineParts line).headD "") "http://"
            || strStartsWith ((lineParts line).headD "") "https://"))
    ∧ parseUrlsText "not-a-url, label, file.pdf" = []
    ∧ parseUrlsText "https://x.com, L, f.pdf"
        = [{ url := "https://x.com", label := "L", fileName := "f.pdf" }] :=
  ⟨fun input => filterMap_guard (fun p : Nat × String => lineAccepted p.2)
      (fun p : Nat × String => lineItem p.1 p.2) (nonBlankLines input).enum,
    fun _ => rfl, by decide, by decide⟩

/-- C4 counterexample: in the input `"not-a-url\nhttps://x.com"` the only
accepted work item is the *first* of the accepted sequence and carries no
explicit file name, so under the claim its default would be
`PDF_001.pdf`; the code hands it `PDF_002.pdf`, the zero-padded position
among the raw (non-blank) input lines. -/
theorem c4_counterexample :
    parseUrlsText "not-a-url\nhttps://x.com"
        = [{ url := "https://x.com", label := "", fileName := "PDF_002.pdf" }]
      ∧ "PDF_002.pdf" ≠ "PDF_001.pdf" := by
  constructor
  · decide
  · decide

/-- C4 (amended): a default file name is `PDF_<k>.pdf` with `k` the item's
1-based position in the *raw* input sequence — the element index of the
decoded array in structured parsing, the index among non-blank lines in
plain parsing — not its position among the accepted items.  On the spec's
example (where nothing is dropped) the two positions coincide and the
first item gets `PDF_001.pdf`. -/
theorem c4_raw_position_default :
    (∀ (idx : Nat) (line : String), (lineParts line).getD 2 "" = "" →
        (lineItem idx line).fileName = defaultName (idx + 1))
    ∧ (∀ (idx : Nat) (s : String), jsonItemStep idx (.str s)
        = .ok (some { url := .str s, fileName := .str (defaultName (idx + 1)), label := none }))
    ∧ parseUrlsJson (some (.arr [.str "https://a.com",
        .obj [("url", .str "https://b.com"), ("fileName", .str "b.pdf")]]))
      = .ok [{ url := .str "https://a.com", fileName := .str "PDF_001.pdf", label := none },
             { url := .str "https://b.com", fileName := .str "b.pdf",
               label := some (.str "") }]
    ∧ parseUrlsJson (some (.arr [.obj [("note", .str "no url here")], .str "https://a.com"]))
      = .ok [{ url := .str "https://a.com", fileName := .str "PDF_002.pdf", label := none }] := by
  refine ⟨?_, fun idx s => rfl, rfl, rfl⟩
  intro idx line h
  have h2 : (lineParts line)[2]?.getD "" = "" := by simpa [List.getD] using h
  simp [lineItem, List.getD, h2]

theorem c4_witness :
    (lineParts "https://x.com").getD 2 "" = ""
      ∧ (lineItem 1 "https://x.com").fileName = defaultName (1 + 1) :=
  ⟨by decide, c4_raw_position_default.1 1 "https://x.com" (by decide)⟩

/-- Traversal of an array containing a (top-level) `null` element always
throws: the TypeError of `null.url` escapes to the shared `catch`. -/
theorem jsonLoop_error_of_null :
    ∀ (xs : List JsVal) (idx : Nat), JsVal.null ∈ xs →
      ∃ e, jsonLoop idx xs = .error e := by
  intro xs
  induction xs with
  | nil => intro idx h; exact absurd h (List.not_mem_nil _)
  | cons x rest ih =>
    intro idx hmem
    rcases List.mem_cons.mp hmem with h | h
    · rw [← h]
      exact ⟨_, rfl⟩
    · obtain ⟨e, he⟩ := ih (idx + 1) h
      cases hstep : jsonItemStep idx x with
      | error e' => exact ⟨e', by simp [jsonLoop, hstep]⟩
      | ok o =>
        cases o with
        | none => exact ⟨e, by simp [jsonLoop, hstep, he]⟩
        | some it => exact ⟨e, by simp [jsonLoop, hstep, he]⟩

/-- No element other than `null` (or the JSON-unreachable `undefined`)
can throw during the traversal. -/
theorem jsonItemStep_ok (idx : Nat) (x : JsVal)
    (h1 : x ≠ JsVal.null) (h2 : x ≠ JsVal.undefined) :
    ∃ o, jsonItemStep idx x = .ok o := by
  cases x with
  | str s => exact ⟨_, rfl⟩
  | num n => exact ⟨_, rfl⟩
  | bool b => exact ⟨_, rfl⟩
  | null => exact absurd rfl h1
  | undefined => exact absurd rfl h2
  | arr ys => exact ⟨_, rfl⟩
  | obj fields =>
    by_cases hu : jsTruthy (objLookup fields "url")
    · exact ⟨some (jsonObjItem idx fields),
        by simp [jsonItemStep, jsProp, JsVal.toFields, hu]⟩
    · exact ⟨none, by simp [jsonItemStep, jsProp, hu]⟩

theorem jsonLoop_ok_of_no_null :
    ∀ (xs : List JsVal) (idx : Nat),
      (∀ x ∈ xs, x ≠ JsVal.null ∧ x ≠ JsVal.undefined) →
      ∃ items, jsonLoop idx xs = .ok items := by
  intro xs
  induction xs with
  | nil => intro idx _; exact ⟨[], rfl⟩
  | cons x rest ih =>
    intro idx hall
    have hx := hall x (List.mem_cons_self x rest)
    obtain ⟨o, ho⟩ := jsonItemStep_ok idx x hx.1 hx.2
    obtain ⟨items, hrest⟩ := ih (idx + 1)
      (fun y hy => hall y (List.mem_cons_of_mem x hy))
    cases o with
    | none => exact ⟨items, by simp [jsonLoop, ho, hrest]⟩
    | some it => exact ⟨it :: items, by simp [jsonLoop, ho, hrest]⟩

/-- C10: a `null` element anywhere in the decoded array makes the whole
structured parse fail with the hard error `'Invalid JSON format'`; an
object element whose `url` is absent or falsy yields no item and the
traversal continues with the remaining elements (no error); and decoded
JSON that is not an array yields the empty item list with no error. -/
theorem c10_null_rejects_missing_url_drops :
    (∀ (xs : List JsVal), JsVal.null ∈ xs →
        parseUrlsJson (some (.arr xs)) = .error "Invalid JSON format")
    ∧ (∀ (idx : Nat) (x : JsVal) (rest : List JsVal), jsonItemStep idx x = .ok none →
        jsonLoop idx (x :: rest) = jsonLoop (idx + 1) rest)
    ∧ (∀ (idx : Nat) (fields : List (String × JsVal)),
        jsTruthy (objLookup fields "url") = false →
        jsonItemStep idx (.obj fields) = .ok none)
    ∧ (∀ (xs : List JsVal), (∀ x ∈ xs, x ≠ JsVal.null ∧ x ≠ JsVal.undefined) →
        ∃ items, parseUrlsJson (some (.arr xs)) = .ok items)
    ∧ parseUrlsJson (some (.arr [.obj [("note", .str "x")], .str "https://a.com",
        .obj [("url", .str "")]]))
      = .ok [{ url := .str "https://a.com", fileName := .str "PDF_002.pdf", label := none }]
    ∧ parseUrlsJson (some (.obj [("url", .str "https://a.com")])) = .ok []
    ∧ parseUrlsJson (some (.num 7)) = .ok [] := by
  refine ⟨?_, ?_, ?_, ?_, rfl, rfl, rfl⟩
  · intro xs h
    obtain ⟨e, he⟩ := jsonLoop_error_of_null xs 0 h
    simp [parseUrlsJson, he]
  · intro idx x rest h
    simp [jsonLoop, h]
  · intro idx fields h
    simp [jsonItemStep, jsProp, h]
  · intro xs h
    obtain ⟨items, hi⟩ := jsonLoop_ok_of_no_null xs 0 h
    exact ⟨items, by simp [parseUrlsJson, hi]⟩

theorem c10_witness :
    parseUrlsJson (some (.arr [.null])) = .error "Invalid JSON format"
      ∧ jsonItemStep 0 (.obj [("note", .str "x")]) = .ok none :=
  ⟨c10_null_rejects_missing_url_drops.1 [.null] (by simp),
    c10_null_rejects_missing_url_drops.2.2.1 0 [("note", .str "x")] rfl⟩

/-! ### Conversion Client claims -/

/-- For any value that is not `null`/`undefined`, property access does not
throw and yields the object-field lookup (or `undefined`). -/
theorem jsProp_of_safe (v : JsVal) (key : String)
    (h1 : v ≠ JsVal.null) (h2 : v ≠ JsVal.undefined) :
    jsProp v key = .ok (objLookup v.toFields key) := by
  cases v with
  | str s => simp [jsProp, JsVal.toFields, objLookup]
  | num n => simp [jsProp, JsVal.toFields, objLookup]
  | bool b => simp [jsProp, JsVal.toFields, objLookup]
  | null => exact absurd rfl h1
  | undefined => exact absurd rfl h2
  | arr xs => simp [jsProp, JsVal.toFields, objLookup]
  | obj fields => simp [jsProp, JsVal.toFields]

/-- C5 counterexample: a response with the *non-2xx* transport status 500
whose decoded body carries a `FileUrl` is classified as Success — the
status code is never consulted, so "a non-2xx transport outcome yields
Failure" is false as stated. -/
theorem c5_counterexample :
    (convertUrlToPdf "f.pdf" (.response 500
        (.value (.obj [("FileUrl", .str "https://cdn.example/out.pdf")])))).success = true
      ∧ (convertUrlToPdf "f.pdf" (.response 500
          (.value (.obj [("FileUrl", .str "https://cdn.example/out.pdf")])))).fileUrl
        = some (.str "https://cdn.example/out.pdf") :=
  ⟨rfl, rfl⟩

/-- C5 (amended): `convertUrlToPdf` is total over its outcomes — every
invocation resolves to exactly one of the two variants, never an
unhandled rejection; classification depends only on the decoded body:
a truthy `FileUrl` yields Success *regardless of the transport status
code*, while any other decoded body, a body decode failure, a network
error, and the 60-second timeout yield Failure with a reason. -/
theorem c5_conversion_totality :
    (∀ (fn : String) (t : ConvTransport),
        ((convertUrlToPdf fn t).success = true
            ∧ (∃ u, (convertUrlToPdf fn t).fileUrl = some u ∧ jsTruthy u = true)
            ∧ (convertUrlToPdf fn t).error = none)
          ∨ ((convertUrlToPdf fn t).success = false
            ∧ (convertUrlToPdf fn t).fileUrl = none
            ∧ ∃ e, (convertUrlToPdf fn t).error = some e))
    ∧ (∀ (fn : String) (status : Nat) (v : JsVal),
        v ≠ JsVal.null → v ≠ JsVal.undefined →
        jsTruthy (objLookup v.toFields "FileUrl") = true →
        (convertUrlToPdf fn (.response status (.value v))).success = true)
    ∧ (∀ (fn : String) (status : Nat) (v : JsVal),
        v ≠ JsVal.null → v ≠ JsVal.undefined →
        jsTruthy (objLookup v.toFields "FileUrl") = false →
        (convertUrlToPdf fn (.response status (.value v))).success = false
          ∧ (convertUrlToPdf fn (.response status (.value v))).error
            = some (jsOr (objLookup v.toFields "Error")
                (jsOr (objLookup v.toFields "error") (.str "Unknown API error"))))
    ∧ (∀ (fn m : String), convertUrlToPdf fn (.netError m)
        = { success := false, fileUrl := none, error := some (.str m), fileName := fn })
    ∧ (∀ (fn : String), convertUrlToPdf fn .timeout
        = { success := false, fileUrl := none
            error := some (.str "Request timeout"), fileName := fn })
    ∧ (∀ (fn : String) (status : Nat) (m : String),
        convertUrlToPdf fn (.response status (.malformed m))
          = { success := false, fileUrl := none
              error := some (.str ("JSON parse error: " ++ m)), fileName := fn }) := by
  refine ⟨?_, ?_, ?_, fun fn m => rfl, fun fn => rfl, fun fn status m => rfl⟩
  · intro fn t
    match t with
    | .netError m => exact Or.inr ⟨rfl, rfl, _, rfl⟩
    | .timeout => exact Or.inr ⟨rfl, rfl, _, rfl⟩
    | .response status (.malformed m) => exact Or.inr ⟨rfl, rfl, _, rfl⟩
    | .response status (.value v) =>
      cases hv : jsProp v "FileUrl" with
      | error m => exact Or.inr ⟨by simp [convertUrlToPdf, hv], by simp [convertUrlToPdf, hv],
          .str ("JSON parse error: " ++ m), by simp [convertUrlToPdf, hv]⟩
      | ok u =>
        by_cases hu : jsTruthy u
        · exact Or.inl ⟨by simp [convertUrlToPdf, hv, hu],
            ⟨u, by simp [convertUrlToPdf, hv, hu], hu⟩, by simp [convertUrlToPdf, hv, hu]⟩
        · exact Or.inr ⟨by simp [convertUrlToPdf, hv, hu], by simp [convertUrlToPdf, hv, hu],
            jsOr (objLookup v.toFields "Error")
              (jsOr (objLookup v.toFields "error") (.str "Unknown API error")),
            by simp [convertUrlToPdf, hv, hu]⟩
  · intro fn status v h1 h2 hu
    simp [convertUrlToPdf, jsProp_of_safe v "FileUrl" h1 h2, hu]
  · intro fn status v h1 h2 hu
    constructor
    · simp [convertUrlToPdf, jsProp_of_safe v "FileUrl" h1 h2, hu]
    · simp [convertUrlToPdf, jsProp_of_safe v "FileUrl" h1 h2, hu]

theorem c5_witness :
    ((JsVal.obj [("FileUrl", .str "https://cdn.example/a.pdf")]) ≠ JsVal.null)
      ∧ ((JsVal.obj [("FileUrl", .str "https://cdn.example/a.pdf")]) ≠ JsVal.undefined)
      ∧ jsTruthy (objLookup
          (JsVal.obj [("FileUrl", .str "https://cdn.example/a.pdf")]).toFields "FileUrl") = true
      ∧ (convertUrlToPdf "a.pdf" (.response 404
          (.value (.obj [("FileUrl", .str "https://cdn.example/a.pdf")])))).success = true :=
  ⟨fun h => JsVal.noConfusion h, fun h => JsVal.noConfusion h, rfl,
    c5_conversion_totality.2.1 "a.pdf" 404
      (.obj [("FileUrl", .str "https://cdn.example/a.pdf")])
      (fun h => JsVal.noConfusion h) (fun h => JsVal.noConfusion h) rfl⟩

/-! ### Artifact Fetcher claims -/

/-- C6 counterexample: the initial response is a 302 redirect and the
redirected request answers with another redirect (301) — `downloadPdf`
resolves successfully and keeps the file, treating the second redirect
response as artifact content instead of surfacing a `FetchError`. -/
theorem c6_counterexample :
    (downloadPdf "/tmp/x.pdf" (.resp 302 "https://first.example")
        (.resp 301 "https://second.example")).result = .ok "/tmp/x.pdf"
      ∧ (downloadPdf "/tmp/x.pdf" (.resp 302 "https://first.example")
          (.resp 301 "https://second.example")).fileKept = true :=
  ⟨rfl, rfl⟩

/-- C6 (amended): exactly one redirect hop (301/302) is followed
automatically, but only the *initial* response's status is inspected: on
the initial request any status other than 200/301/302 is surfaced as a
fetch error (and the partial file removed), while the response to the
redirected request is piped to disk and resolved as the artifact whatever
its status — a second redirect is not detected; only a network error on
the redirected request is surfaced. -/
theorem c6_one_redirect_hop :
    (∀ (p loc m : String) (s : Nat), s = 301 ∨ s = 302 →
        (downloadPdf p (.resp s loc) (.netErr m)).result = .error m)
    ∧ (∀ (p loc loc2 : String) (s s2 : Nat), s = 301 ∨ s = 302 →
        (downloadPdf p (.resp s loc) (.resp s2 loc2)).result = .ok p)
    ∧ (∀ (p loc : String) (s : Nat) (second : FetchSecond),
        s ≠ 200 → s ≠ 301 → s ≠ 302 →
        (downloadPdf p (.resp s loc) second).result = .error ("HTTP " ++ toString s)
          ∧ (downloadPdf p (.resp s loc) second).fileKept = false)
    ∧ (∀ (p loc : String) (second : FetchSecond),
        (downloadPdf p (.resp 200 loc) second).result = .ok p)
    ∧ (∀ (p m : String) (second : FetchSecond),
        (downloadPdf p (.netErr m) second).result = .error m
          ∧ (downloadPdf p (.netErr m) second).fileKept = false)
    ∧ (∀ (p : String) (second : FetchSecond),
        (downloadPdf p .timeout second).result = .error "Download timeout"
          ∧ (downloadPdf p .timeout second).fileKept = false) := by
  refine ⟨?_, ?_, ?_, fun p loc second => rfl,
    fun p m second => ⟨rfl, rfl⟩, fun p second => ⟨rfl, rfl⟩⟩
  · intro p loc m s hs
    simp [downloadPdf, hs]
  · intro p loc loc2 s s2 hs
    simp [downloadPdf, hs]
  · intro p loc s second hs200 hs301 hs302
    constructor
    · simp [downloadPdf, hs200, hs301, hs302]
    · simp [downloadPdf, hs200, hs301, hs302]

theorem c6_witness :
    (404 ≠ 200 ∧ 404 ≠ 301 ∧ 404 ≠ 302)
      ∧ (downloadPdf "/tmp/y.pdf" (.resp 404 "") (.netErr "unused")).result
        = .error ("HTTP " ++ toString 404)
      ∧ (downloadPdf "/tmp/y.pdf" (.resp 404 "") (.netErr "unused")).fileKept = false :=
  ⟨⟨by decide, by decide, by decide⟩,
    (c6_one_redirect_hop.2.2.1 "/tmp/y.pdf" "" 404 (.netErr "unused")
      (by decide) (by decide) (by decide)).1,
    (c6_one_redirect_hop.2.2.1 "/tmp/y.pdf" "" 404 (.netErr "unused")
      (by decide) (by decide) (by decide)).2⟩

/-! ### Delivery claims -/

/-- C7: whenever the compressed bundle exceeds the hard 25MB ceiling the
bundle-and-mail delivery returns `success:false` with the size-exceeded
message (which names the ceiling and directs the caller to the Google
Drive strategy), never a truncated delivery; and the on-disk bundle file
is removed on this path and on every other path (success, mail failure,
or an exception). -/
theorem c7_email_size_ceiling :
    (∀ (size : Nat) (eo : Except String EmailResult), size > maxZipSize →
        (sendPdfsViaEmail (.ok size) eo).1.success = false
          ∧ (sendPdfsViaEmail (.ok size) eo).1.error = some (sizeExceededMsg size)
          ∧ (sendPdfsViaEmail (.ok size) eo).2 = false)
    ∧ (∀ (zo : Except String Nat) (eo : Except String EmailResult),
        (sendPdfsViaEmail zo eo).2 = false)
    ∧ (∀ (size : Nat), ∃ pre : String, sizeExceededMsg size
        = pre ++ "Maximum is 25MB. Consider using Google Drive delivery instead.") := by
  refine ⟨?_, ?_, ?_⟩
  · intro size eo h
    refine ⟨?_, ?_, ?_⟩ <;> simp [sendPdfsViaEmail, h]
  · intro zo eo
    match zo with
    | .error m => rfl
    | .ok size =>
      by_cases h : size > maxZipSize
      · simp [sendPdfsViaEmail, h]
      · match eo with
        | .error m => simp [sendPdfsViaEmail, h]
        | .ok r => simp [sendPdfsViaEmail, h]
  · intro size
    refine ⟨"ZIP file too large (" ++ formatMB2 size ++ " MB). ", ?_⟩
    show ("ZIP file too large (" ++ formatMB2 size)
        ++ " MB). Maximum is 25MB. Consider using Google Drive delivery instead." = _
    rw [show (" MB). Maximum is 25MB. Consider using Google Drive delivery instead." : String)
        = " MB). " ++ "Maximum is 25MB. Consider using Google Drive delivery instead." from rfl]
    rw [← String.append_assoc]

theorem c7_witness :
    (25 * 1024 * 1024 + 1 > maxZipSize)
      ∧ (sendPdfsViaEmail (.ok (25 * 1024 * 1024 + 1))
          (.ok { success := true, error := none, messageId := some "m" })).1.success = false
      ∧ (sendPdfsViaEmail (.ok (25 * 1024 * 1024 + 1))
          (.ok { success := true, error := none, messageId := some "m" })).1.error
        = some (sizeExceededMsg (25 * 1024 * 1024 + 1))
      ∧ (sendPdfsViaEmail (.ok (25 * 1024 * 1024 + 1))
          (.ok { success := true, error := none, messageId := some "m" })).2 = false := by
  have h := c7_email_size_ceiling.1 (25 * 1024 * 1024 + 1)
    (.ok { success := true, error := none, messageId := some "m" }) (by decide)
  exact ⟨by decide, h.1, h.2.1, h.2.2⟩

theorem uploadLoop_length (uploads : Nat → Except String DriveFile) :
    ∀ (files : List PdfFile) (k : Nat), (uploadLoop uploads k files).length = files.length := by
  intro files
  induction files with
  | nil => intro k; rfl
  | cons pdf rest ih =>
    intro k
    cases h : uploads k <;> simp [uploadLoop, h, ih (k + 1)]

theorem uploadLoop_failed_count (uploads : Nat → Except String DriveFile) :
    ∀ (files : List PdfFile) (k : Nat),
      ((uploadLoop uploads k files).filter (fun r => !r.success)).length
        = ((List.range' k files.length).filter (uploadFailed uploads)).length := by
  intro files
  induction files with
  | nil => intro k; rfl
  | cons pdf rest ih =>
    intro k
    rw [List.length_cons, List.range'_succ]
    cases h : uploads k with
    | ok r =>
      simp [uploadLoop, h, List.filter_cons, uploadFailed, ih (k + 1)]
    | error m =>
      simp [uploadLoop, h, List.filter_cons, uploadFailed, ih (k + 1)]

theorem uploadLoop_ok_count (uploads : Nat → Except String DriveFile) :
    ∀ (files : List PdfFile) (k : Nat),
      ((uploadLoop uploads k files).filter (fun r => r.success)).length
        = ((List.range' k files.length).filter (fun j => !uploadFailed uploads j)).length := by
  intro files
  induction files with
  | nil => intro k; rfl
  | cons pdf rest ih =>
    intro k
    rw [List.length_cons, List.range'_succ]
    cases h : uploads k with
    | ok r =>
      simp [uploadLoop, h, List.filter_cons, uploadFailed, ih (k + 1)]
    | error m =>
      simp [uploadLoop, h, List.filter_cons, uploadFailed, ih (k + 1)]

/-- C8: with folder creation and the share grant succeeding, the
upload-and-share delivery succeeds whatever the individual uploads do:
every file yields exactly one entry (a failed upload never aborts the
remaining uploads), the folder share link is present, and `failedFiles`
counts exactly the failed uploads.  Instantiated below: 2 failures among
10 uploads still give `success:true` with a tally of 2. -/
theorem c8_upload_fault_tolerance (pdfFiles : List PdfFile) (folder : DriveFolder)
    (uploads : Nat → Except String DriveFile) (link : String) :
    (uploadPdfsToSharedFolder pdfFiles (.ok folder) uploads (.ok link)).success = true
      ∧ (uploadPdfsToSharedFolder pdfFiles (.ok folder) uploads (.ok link)).shareLink
          = some link
      ∧ (uploadPdfsToSharedFolder pdfFiles (.ok folder) uploads (.ok link)).results.length
          = pdfFiles.length
      ∧ (uploadPdfsToSharedFolder pdfFiles (.ok folder) uploads (.ok link)).failedFiles
          = some ((List.range pdfFiles.length).filter (uploadFailed uploads)).length
      ∧ (uploadPdfsToSharedFolder pdfFiles (.ok folder) uploads (.ok link)).uploadedFiles
          = some ((List.range pdfFiles.length).filter
              (fun j => !uploadFailed uploads j)).length
      ∧ (uploadPdfsToSharedFolder pdfFiles (.ok folder) uploads (.ok link)).folderId
          = some folder.id := by
  refine ⟨rfl, rfl, ?_, ?_, ?_, rfl⟩
  · exact uploadLoop_length uploads pdfFiles 0
  · show some _ = some _
    rw [uploadLoop_failed_count uploads pdfFiles 0, List.range_eq_range']
  · show some _ = some _
    rw [uploadLoop_ok_count uploads pdfFiles 0, List.range_eq_range']

/-- The spec's 2-of-10 instance, on concrete oracles: uploads 2 and 5
fail, the delivery still reports success with the link and a tally of 2
failed / 8 uploaded. -/
theorem c8_two_of_ten_instance :
    (uploadPdfsToSharedFolder
        (List.replicate 10 { localPath := "p", fileName := "n" })
        (.ok { id := "folder-id", name := "folder" })
        (fun k => if k = 2 || k = 5 then .error "upload failed"
          else .ok { id := "file-id", webViewLink := "w" })
        (.ok "https://drive.example/share")).success = true
      ∧ (uploadPdfsToSharedFolder
          (List.replicate 10 { localPath := "p", fileName := "n" })
          (.ok { id := "folder-id", name := "folder" })
          (fun k => if k = 2 || k = 5 then .error "upload failed"
            else .ok { id := "file-id", webViewLink := "w" })
          (.ok "https://drive.example/share")).failedFiles = some 2
      ∧ (uploadPdfsToSharedFolder
          (List.replicate 10 { localPath := "p", fileName := "n" })
          (.ok { id := "folder-id", name := "folder" })
          (fun k => if k = 2 || k = 5 then .error "upload failed"
            else .ok { id := "file-id", webViewLink := "w" })
          (.ok "https://drive.example/share")).shareLink
        = some "https://drive.example/share" := by
  refine ⟨by decide, by decide, by decide⟩

end UrlToPdf
